import Mathlib

/-!
Verification development for the tempoch time-scale library.

The Rust sources are shallowly embedded over the rational numbers:
every f64 quantity is modelled as an exact rational (the real value of the
decimal literal), fallible operations (slice indexing, which panics when out
of bounds) are modelled as Option-returning functions, and the Rust
`as usize` cast (truncation toward zero, saturating at 0 for negative
values) is modelled by taking the floor and clamping to Nat, which agrees
with it on every rational input.
-/

set_option maxRecDepth 8000

namespace Tempoch

/-! ## Constants from julian_date_ext.rs -/

/-- J2000.0 epoch, JD 2451545.0 (JulianDate::J2000). -/
def J2000 : ℚ := 2451545

/-- Days per Julian century (JulianDate::JULIAN_CENTURY). -/
def JULIAN_CENTURY : ℚ := 36525

/-! ## ΔT model (tempoch-core/src/delta_t.rs) -/

/-- Total number of tabulated terms (biennial 1620 to 1992). -/
def TERMS : Nat := 187

/-- Biennial ΔT table from 1620 to 1992 (in seconds), compiled by J. Meeus. -/
def DELTA_T : List ℚ := [
  124.0,115.0,106.0, 98.0, 91.0, 85.0, 79.0, 74.0, 70.0, 65.0,
   62.0, 58.0, 55.0, 53.0, 50.0, 48.0, 46.0, 44.0, 42.0, 40.0,
   37.0, 35.0, 33.0, 31.0, 28.0, 26.0, 24.0, 22.0, 20.0, 18.0,
   16.0, 14.0, 13.0, 12.0, 11.0, 10.0,  9.0,  9.0,  9.0,  9.0,
    9.0,  9.0,  9.0,  9.0, 10.0, 10.0, 10.0, 10.0, 10.0, 11.0,
   11.0, 11.0, 11.0, 11.0, 11.0, 11.0, 12.0, 12.0, 12.0, 12.0,
   12.0, 12.0, 13.0, 13.0, 13.0, 13.0, 14.0, 14.0, 14.0, 15.0,
   15.0, 15.0, 15.0, 16.0, 16.0, 16.0, 16.0, 16.0, 17.0, 17.0,
   17.0, 17.0, 17.0, 17.0, 17.0, 17.0, 16.0, 16.0, 15.0, 14.0,
   13.7, 13.1, 12.7, 12.5, 12.5, 12.5, 12.5, 12.5, 12.5, 12.3,
   12.0, 11.4, 10.6,  9.6,  8.6,  7.5,  6.6,  6.0,  5.7,  5.6,
    5.7,  5.9,  6.2,  6.5,  6.8,  7.1,  7.3,  7.5,  7.7,  7.8,
    7.9,  7.5,  6.4,  5.4,  2.9,  1.6, -1.0, -2.7, -3.6, -4.7,
   -5.4, -5.2, -5.5, -5.6, -5.8, -5.9, -6.2, -6.4, -6.1, -4.7,
   -2.7,  0.0,  2.6,  5.4,  7.7, 10.5, 13.4, 16.0, 18.2, 20.2,
   21.2, 22.4, 23.5, 23.9, 24.3, 24.0, 23.9, 23.9, 23.7, 24.0,
   24.3, 25.3, 26.2, 27.3, 28.2, 29.1, 30.0, 30.7, 31.4, 32.2,
   33.1, 34.0, 35.0, 36.5, 38.3, 40.2, 42.2, 44.5, 46.5, 48.5,
   50.5, 52.2, 53.8, 54.9, 55.8, 56.9, 58.3]

/-- Number of annual observed ΔT values (1992.0 to 2025.0). -/
def OBSERVED_TERMS : Nat := 34

/-- First year covered by the annual observed table. -/
def OBSERVED_START_YEAR : ℚ := 1992

/-- Annual ΔT values (seconds) from IERS/USNO observations, 1992.0 to 2025.0. -/
def OBSERVED_DT : List ℚ := [
  58.31, 59.12, 59.98, 60.78, 61.63, 62.30, 62.97, 63.47,
  63.83, 64.09, 64.30, 64.47, 64.57, 64.69, 64.85, 65.15,
  65.46, 65.78, 66.07, 66.32, 66.60, 66.91, 67.28, 67.64,
  68.10, 68.59, 68.97, 69.22, 69.36, 69.36, 69.29, 69.18,
  69.09, 69.36]

/-- The year after the last observed data point; beyond it the model extrapolates. -/
def OBSERVED_END_YEAR : ℚ := OBSERVED_START_YEAR + (OBSERVED_TERMS : ℚ)

/-- Last observed ΔT rate, seconds per year. -/
def EXTRAPOLATION_RATE : ℚ := 0.02

/-- Rust `f64 as usize`: truncation toward zero, saturating at 0 below.
On every rational this agrees with flooring and clamping to Nat. -/
def rust_as_usize (x : ℚ) : Nat := (⌊x⌋).toNat

/-- Years before 948 CE: quadratic of Stephenson and Houlden (delta_t_ancient). -/
def delta_t_ancient (jd : ℚ) : ℚ :=
  let c := (jd - 2067314.5) / JULIAN_CENTURY
  1830 + (-405) * c + 46.5 * c * c

/-- Years 948 to 1600 CE: second Stephenson and Houlden polynomial (delta_t_medieval). -/
def delta_t_medieval (jd : ℚ) : ℚ :=
  let c := (jd - 2396758.5) / JULIAN_CENTURY
  22.5 * c * c

/-- Years 1600 to 1992: interpolation in the biennial DELTA_T table
(delta_t_table).  Slice indexing is modelled with Option. -/
def delta_t_table (jd : ℚ) : Option ℚ :=
  let i0 := rust_as_usize ((jd - 2312752.5) / 730.5)
  let i := if i0 > TERMS - 3 then TERMS - 3 else i0
  match DELTA_T[i]?, DELTA_T[i+1]?, DELTA_T[i+2]? with
  | some y1, some y2, some y3 =>
      let a := y2 - y1
      let b := y3 - y2
      let c := a - b
      let n := (jd - (2312752.5 + 730.5 * (i : ℚ))) / 730.5
      some (y2 + n / 2 * (a + b + n * c))
  | _, _, _ => none

/-- Years 1992 to 2026: linear interpolation in the annual observed table
(delta_t_observed). -/
def delta_t_observed (jd : ℚ) : Option ℚ :=
  let year := 2000 + (jd - J2000) / 365.25
  let idx_f := year - OBSERVED_START_YEAR
  let idx := rust_as_usize idx_f
  if idx + 1 ≥ OBSERVED_TERMS then
    OBSERVED_DT[OBSERVED_TERMS - 1]?
  else
    match OBSERVED_DT[idx]?, OBSERVED_DT[idx+1]? with
    | some y0, some y1 => some (y0 + (idx_f - (idx : ℚ)) * (y1 - y0))
    | _, _ => none

/-- Years past 2026: linear extrapolation from the last observed value at the
current observed rate (delta_t_extrapolated). -/
def delta_t_extrapolated (jd : ℚ) : Option ℚ :=
  let year := 2000 + (jd - J2000) / 365.25
  (OBSERVED_DT[OBSERVED_TERMS - 1]?).map
    (fun dt_last => dt_last + EXTRAPOLATION_RATE * (year - OBSERVED_END_YEAR))

/-- JD boundary: start of year 1992.0. -/
def JD_1992 : ℚ := 2448622.5

/-- JD boundary: start of year 2026.0. -/
def JD_2026 : ℚ := 2461041.5

/-- ΔT in seconds for a Julian Day on the UT axis (delta_t_seconds_from_ut),
dispatching over the five regimes. -/
def delta_t_seconds_from_ut (jd_ut : ℚ) : Option ℚ :=
  if jd_ut < 2067314.5 then some (delta_t_ancient jd_ut)
  else if jd_ut < 2305447.5 then some (delta_t_medieval jd_ut)
  else if jd_ut < JD_1992 then delta_t_table jd_ut
  else if jd_ut < JD_2026 then delta_t_observed jd_ut
  else delta_t_extrapolated jd_ut

/-! ## Leap-second table and lookup (tempoch-core/src/scales.rs) -/

/-- Leap-second table: (JD of leap-second insertion, cumulative TAI minus UTC
after it).  Source: IERS Bulletin C, 28 insertions from 1972 to 2017. -/
def LEAP_SECONDS : List (ℚ × ℚ) := [
  (2441317.5, 10.0), (2441499.5, 11.0), (2441683.5, 12.0), (2442048.5, 13.0),
  (2442413.5, 14.0), (2442778.5, 15.0), (2443144.5, 16.0), (2443509.5, 17.0),
  (2443874.5, 18.0), (2444239.5, 19.0), (2444786.5, 20.0), (2445151.5, 21.0),
  (2445516.5, 22.0), (2446247.5, 23.0), (2447161.5, 24.0), (2447892.5, 25.0),
  (2448257.5, 26.0), (2448804.5, 27.0), (2449169.5, 28.0), (2449534.5, 29.0),
  (2450083.5, 30.0), (2450630.5, 31.0), (2451179.5, 32.0), (2453736.5, 33.0),
  (2454832.5, 34.0), (2456109.5, 35.0), (2457204.5, 36.0), (2457754.5, 37.0)]

/-- The while-loop of the binary search in tai_minus_utc: searches for the
number of entries with epoch not exceeding the query.  Slice indexing is
modelled with Option (an out-of-bounds access would be a panic). -/
def lsLoop (jd : ℚ) (lo hi : Nat) : Option Nat :=
  if h : lo < hi then
    let mid := lo + (hi - lo) / 2
    match LEAP_SECONDS[mid]? with
    | none => none
    | some e => if e.1 ≤ jd then lsLoop jd (mid + 1) hi else lsLoop jd lo mid
  else some lo
termination_by hi - lo
decreasing_by
  · omega
  · omega

/-- Cumulative TAI minus UTC (leap seconds) for a JD on the UTC axis
(tai_minus_utc): binary search for the last entry at or before the query;
before the first entry the conventional initial offset 10 s is returned. -/
def tai_minus_utc (jd_utc : ℚ) : Option ℚ :=
  match lsLoop jd_utc 0 LEAP_SECONDS.length with
  | none => none
  | some lo =>
      if lo = 0 then some 10.0
      else
        match LEAP_SECONDS[lo - 1]? with
        | some e => some e.2
        | none => none

/-- Epoch of the k-th leap-second entry (0 past the end, for bookkeeping). -/
def lsEpoch (k : Nat) : ℚ := (LEAP_SECONDS.getD k (0, 0)).1

/-! ## Unix time scale (tempoch-core/src/scales.rs) -/

/-- JD of the Unix epoch (1970-01-01T00:00:00Z). -/
def UNIX_EPOCH_JD : ℚ := 2440587.5

/-- TT = TAI + 32.184 s. -/
def TT_MINUS_TAI_SECS : ℚ := 32.184

/-- UnixTime::to_jd_tt: promote Unix days (UTC axis) to JD(TT) by adding the
leap-second count and the fixed TT-TAI constant. -/
def UnixTime.to_jd_tt (value : ℚ) : Option ℚ :=
  let jd_utc := value + UNIX_EPOCH_JD
  match tai_minus_utc jd_utc with
  | some ls => some (jd_utc + (ls + TT_MINUS_TAI_SECS) / 86400)
  | none => none

/-- UnixTime::from_jd_tt: approximate JD(UTC) by subtracting the largest
plausible offset, then refine once with the correct leap-second count. -/
def UnixTime.from_jd_tt (jd_tt : ℚ) : Option ℚ :=
  let approx_utc := jd_tt - (37.0 + TT_MINUS_TAI_SECS) / 86400
  match tai_minus_utc approx_utc with
  | some ls => some (jd_tt - (ls + TT_MINUS_TAI_SECS) / 86400 - UNIX_EPOCH_JD)
  | none => none

/-- The approximate UTC query point used by UnixTime::from_jd_tt. -/
def unix_approx_utc (jd_tt : ℚ) : ℚ := jd_tt - (37.0 + TT_MINUS_TAI_SECS) / 86400

/-- The refined UTC point computed by UnixTime::from_jd_tt. -/
def unix_refined_utc (jd_tt : ℚ) : ℚ :=
  jd_tt - ((tai_minus_utc (unix_approx_utc jd_tt)).getD 0 + TT_MINUS_TAI_SECS) / 86400

/-! ## Universal Time scale (tempoch-core/src/scales.rs, impl TimeScale for UT) -/

/-- UT::to_jd_tt: add the epoch-dependent ΔT correction (seconds to days). -/
def UT.to_jd_tt (ut_value : ℚ) : Option ℚ :=
  match delta_t_seconds_from_ut ut_value with
  | some dt_secs => some (ut_value + dt_secs / 86400)
  | none => none

/-- UT::from_jd_tt: solve ut + ΔT(ut)/86400 = tt by the three-iteration
fixed-point loop started from ut = tt (the loop body unrolled). -/
def UT.from_jd_tt (jd_tt : ℚ) : Option ℚ :=
  match delta_t_seconds_from_ut jd_tt with
  | none => none
  | some d1 =>
    match delta_t_seconds_from_ut (jd_tt - d1 / 86400) with
    | none => none
    | some d2 =>
      match delta_t_seconds_from_ut (jd_tt - d2 / 86400) with
      | none => none
      | some d3 => some (jd_tt - d3 / 86400)

/-! ## Remaining time scales (tempoch-core/src/scales.rs) -/

/-- The constant offset between JD and MJD: JD = MJD + MJD_EPOCH. -/
def MJD_EPOCH : ℚ := 2400000.5

/-- TT = TAI + 32.184 s expressed in days. -/
def TT_MINUS_TAI : ℚ := 32.184 / 86400

/-- IAU defining constant L_G (IAU 2000 Resolution B1.9). -/
def L_G : ℚ := 6.969290134e-10

/-- TCG epoch T0: JD(TCG) of 1977 January 1.0 TAI. -/
def TCG_EPOCH_T0 : ℚ := 2443144.5003725

/-- IAU defining constant L_B (IAU 2006 Resolution B3). -/
def L_B : ℚ := 1.550519768e-8

/-- JD(TT) of the GPS epoch. -/
def GPS_EPOCH_JD_TT : ℚ := 2444244.5 + 51.184 / 86400

/-- TDB minus TT in days, Fairhead-Bretagnon 4-term series
(tdb_minus_tt_days).  The f64 transcendental primitives are abstracted as
parameters: s is the sine and r the degree-to-radian conversion (whose
factor pi/180 is irrational), both rationally approximated by f64 anyway. -/
def tdb_minus_tt_days (s r : ℚ → ℚ) (jd_tt : ℚ) : ℚ :=
  let t := (jd_tt - 2451545) / 36525
  let m_e := r (357.5291092 + 35999.0502909 * t)
  let m_j := r (246.4512 + 3035.2335 * t)
  let d := r (297.8502042 + 445267.1115168 * t)
  let om := r (125.0445550 - 1934.1362091 * t)
  let dt_sec := 0.001657 * s (m_e + 0.01671 * s m_e)
    + 0.000022 * s (d - m_e)
    + 0.000014 * s (2.0 * d)
    + 0.000005 * s m_j
    + 0.000005 * s om
  dt_sec / 86400

/-- TCG::to_jd_tt: TT = TCG − L_G (JD_TCG − T0). -/
def TCG.to_jd_tt (tcg_value : ℚ) : ℚ :=
  tcg_value - L_G * (tcg_value - TCG_EPOCH_T0)

/-- TCG::from_jd_tt: JD_TCG = JD_TT + L_G (JD_TT − T0) / (1 − L_G). -/
def TCG.from_jd_tt (jd_tt : ℚ) : ℚ :=
  jd_tt + L_G * (jd_tt - TCG_EPOCH_T0) / (1 - L_G)

/-- TCB::to_jd_tt: TDB = TCB − L_B (JD_TCB − T0), treating TDB as TT. -/
def TCB.to_jd_tt (tcb_value : ℚ) : ℚ :=
  tcb_value - L_B * (tcb_value - TCG_EPOCH_T0)

/-- TCB::from_jd_tt: JD_TCB = JD_TDB + L_B (JD_TDB − T0). -/
def TCB.from_jd_tt (jd_tt : ℚ) : ℚ :=
  jd_tt + L_B * (jd_tt - TCG_EPOCH_T0)

/-- The eleven supported time-scale markers, as one closed enumeration. -/
inductive Scale where
  | JD | JDE | MJD | TDB | TT | TAI | TCG | TCB | GPS | UnixTime | UT
deriving DecidableEq

/-- Scale dispatch of to_jd_tt, each arm embedding the corresponding
TimeScale::to_jd_tt implementation. -/
def Scale.to_jd_tt (s r : ℚ → ℚ) : Scale → ℚ → Option ℚ
  | .JD, value => some value
  | .JDE, value => some value
  | .MJD, value => some (value + MJD_EPOCH)
  | .TDB, tdb_value => some (tdb_value - tdb_minus_tt_days s r tdb_value)
  | .TT, value => some value
  | .TAI, value => some (value + TT_MINUS_TAI)
  | .TCG, tcg_value => some (TCG.to_jd_tt tcg_value)
  | .TCB, tcb_value => some (TCB.to_jd_tt tcb_value)
  | .GPS, value => some (value + GPS_EPOCH_JD_TT)
  | .UnixTime, value => UnixTime.to_jd_tt value
  | .UT, ut_value => UT.to_jd_tt ut_value

/-- Scale dispatch of from_jd_tt. -/
def Scale.from_jd_tt (s r : ℚ → ℚ) : Scale → ℚ → Option ℚ
  | .JD, jd_tt => some jd_tt
  | .JDE, jd_tt => some jd_tt
  | .MJD, jd_tt => some (jd_tt - MJD_EPOCH)
  | .TDB, jd_tt => some (jd_tt + tdb_minus_tt_days s r jd_tt)
  | .TT, jd_tt => some jd_tt
  | .TAI, jd_tt => some (jd_tt - TT_MINUS_TAI)
  | .TCG, jd_tt => some (TCG.from_jd_tt jd_tt)
  | .TCB, jd_tt => some (TCB.from_jd_tt jd_tt)
  | .GPS, jd_tt => some (jd_tt - GPS_EPOCH_JD_TT)
  | .UnixTime, jd_tt => UnixTime.from_jd_tt jd_tt
  | .UT, jd_tt => UT.from_jd_tt jd_tt

/-- Time::to (instant.rs): route through the canonical JD(TT) axis, exactly
one forward and one inverse call. -/
def Time.to (s r : ℚ → ℚ) (A B : Scale) (value : ℚ) : Option ℚ :=
  (Scale.to_jd_tt s r A value).bind (Scale.from_jd_tt s r B)

/-- The scales whose canonical conversions are total affine maps (all except
the periodic TDB series, the leap-second UnixTime, and the ΔT-driven UT). -/
def Scale.isUniformAffine : Scale → Bool
  | .JD | .JDE | .MJD | .TT | .TAI | .TCG | .TCB | .GPS => true
  | _ => false

/-- Pure value of to_jd_tt for the affine scales (identity elsewhere;
unused there). -/
def Scale.toPure : Scale → ℚ → ℚ
  | .MJD, value => value + MJD_EPOCH
  | .TAI, value => value + TT_MINUS_TAI
  | .TCG, tcg_value => TCG.to_jd_tt tcg_value
  | .TCB, tcb_value => TCB.to_jd_tt tcb_value
  | .GPS, value => value + GPS_EPOCH_JD_TT
  | _, value => value

/-- Pure value of from_jd_tt for the affine scales (identity elsewhere;
unused there). -/
def Scale.fromPure : Scale → ℚ → ℚ
  | .MJD, jd_tt => jd_tt - MJD_EPOCH
  | .TAI, jd_tt => jd_tt - TT_MINUS_TAI
  | .TCG, jd_tt => TCG.from_jd_tt jd_tt
  | .TCB, jd_tt => TCB.from_jd_tt jd_tt
  | .GPS, jd_tt => jd_tt - GPS_EPOCH_JD_TT
  | _, jd_tt => jd_tt

/-! ## Interval and period algebra (src/period.rs) -/

/-- Interval between two instants (period.rs Interval; the Rust field
named end is called stop here, end being reserved in Lean). -/
structure Interval (α : Type) where
  start : α
  stop : α
deriving DecidableEq

/-- The index-advancement rule at the end of each intersect_periods loop
step: the first list's index advances when its head ends no later than the
second's, otherwise the second list's index advances. -/
def intersect_advance {α : Type} [LinearOrder α]
    (x y : Interval α) (i j : Nat) : Nat × Nat :=
  if x.stop ≤ y.stop then (i + 1, j) else (i, j + 1)

/-- The while-loop of intersect_periods over explicit indices. -/
def intersect_loop {α : Type} [LinearOrder α]
    (a b : List (Interval α)) (i j : Nat) : List (Interval α) :=
  if h : i < a.length ∧ j < b.length then
    let x := a.get ⟨i, h.1⟩
    let y := b.get ⟨j, h.2⟩
    let s := if x.start ≥ y.start then x.start else y.start
    let e := if x.stop ≤ y.stop then x.stop else y.stop
    let ij := intersect_advance x y i j
    let rest := intersect_loop a b ij.1 ij.2
    if s < e then ⟨s, e⟩ :: rest else rest
  else []
termination_by a.length + b.length - (i + j)
decreasing_by
  simp only [intersect_advance]
  split <;> simp <;> omega

/-- intersect_periods (period.rs): two-pointer merge of two sorted
non-overlapping period lists. -/
def intersect_periods {α : Type} [LinearOrder α]
    (a b : List (Interval α)) : List (Interval α) :=
  intersect_loop a b 0 0

/-- The sweep loop of complement_within: cursor over the sorted
sub-periods, emitting gaps, with the final trailing gap at the end. -/
def complement_go {α : Type} [LinearOrder α] (outer_stop : α) :
    α → List (Interval α) → List (Interval α)
  | cursor, [] => if cursor < outer_stop then [Interval.mk cursor outer_stop] else []
  | cursor, p :: ps =>
      (if p.start > cursor then [Interval.mk cursor p.start] else []) ++
      complement_go outer_stop (if p.stop > cursor then p.stop else cursor) ps

/-- complement_within (period.rs): gaps of the sorted sub-periods within
the bounding outer period. -/
def complement_within {α : Type} [LinearOrder α]
    (outer : Interval α) (periods : List (Interval α)) : List (Interval α) :=
  complement_go outer.stop outer.start periods

/-- Head-recursive restatement of the merge loop (indices replaced by list
suffixes), used to reason about single steps. -/
def intersect_list {α : Type} [LinearOrder α] :
    List (Interval α) → List (Interval α) → List (Interval α)
  | x :: xs, y :: ys =>
    let s := if x.start ≥ y.start then x.start else y.start
    let e := if x.stop ≤ y.stop then x.stop else y.stop
    let rest := if x.stop ≤ y.stop then intersect_list xs (y :: ys)
                else intersect_list (x :: xs) ys
    if s < e then ⟨s, e⟩ :: rest else rest
  | _, _ => []
termination_by a b => a.length + b.length
decreasing_by
  all_goals simp

lemma LEAP_len : LEAP_SECONDS.length = 28 := by rfl

lemma ls_get (k : Nat) (hk : k < 28) :
    LEAP_SECONDS[k]? = some (LEAP_SECONDS.getD k (0, 0)) := by
  have hk28 : k < LEAP_SECONDS.length := by rw [LEAP_len]; exact hk
  rw [List.getElem?_eq_getElem hk28, List.getD_eq_getElem?_getD,
    List.getElem?_eq_getElem hk28]
  rfl

lemma lsEpoch_fold (k : Nat) : (LEAP_SECONDS.getD k (0, 0)).1 = lsEpoch k := rfl

lemma ls_chain : List.Chain' (fun a b : ℚ × ℚ => a.1 ≤ b.1) LEAP_SECONDS := by
  norm_num [LEAP_SECONDS, List.chain'_cons]

lemma lsEpoch_get (k : Nat) (hk : k < 28) :
    lsEpoch k = (LEAP_SECONDS.get ⟨k, by rw [LEAP_len]; exact hk⟩).1 := by
  have hk28 : k < LEAP_SECONDS.length := by rw [LEAP_len]; exact hk
  rw [lsEpoch, List.getD_eq_getElem?_getD, List.getElem?_eq_getElem hk28]
  rfl

lemma lsEpoch_mono (j k : Nat) (hjk : j ≤ k) (hk : k < 28) :
    lsEpoch j ≤ lsEpoch k := by
  rcases Nat.eq_or_lt_of_le hjk with h | h
  · rw [h]
  · haveI : IsTrans (ℚ × ℚ) (fun a b : ℚ × ℚ => a.1 ≤ b.1) :=
      ⟨fun _ _ _ h1 h2 => le_trans h1 h2⟩
    have hpw : List.Pairwise (fun a b : ℚ × ℚ => a.1 ≤ b.1) LEAP_SECONDS :=
      List.chain'_iff_pairwise.mp ls_chain
    rw [lsEpoch_get j (by omega), lsEpoch_get k hk]
    exact List.pairwise_iff_get.mp hpw ⟨j, by rw [LEAP_len]; omega⟩
      ⟨k, by rw [LEAP_len]; exact hk⟩ h

lemma lsVal (k : Nat) (hk : k < 28) :
    (LEAP_SECONDS.getD k (0, 0)).2 = 10 + (k : ℚ) := by
  interval_cases k <;> norm_num [LEAP_SECONDS, List.getD]

lemma lsEpoch_zero : lsEpoch 0 = 2441317.5 := by
  norm_num [lsEpoch, LEAP_SECONDS, List.getD]

/-- Invariant-based specification of the binary-search loop: it yields the
count of leading entries whose epoch does not exceed the query. -/
lemma lsLoop_spec (jd : ℚ) :
    ∀ n lo hi, hi - lo = n → lo ≤ hi → hi ≤ 28 →
    (∀ k, k < lo → lsEpoch k ≤ jd) →
    (∀ k, hi ≤ k → k < 28 → jd < lsEpoch k) →
    ∃ r, lsLoop jd lo hi = some r ∧ lo ≤ r ∧ r ≤ hi ∧
      (∀ k, k < r → lsEpoch k ≤ jd) ∧
      (∀ k, r ≤ k → k < 28 → jd < lsEpoch k) := by
  intro n
  induction n using Nat.strong_induction_on with
  | _ n ih =>
    intro lo hi hn hlohi h28 hbelow habove
    rw [lsLoop]
    by_cases h : lo < hi
    · rw [dif_pos h]
      have hmidlt : lo + (hi - lo) / 2 < 28 := by omega
      have hmidhi : lo + (hi - lo) / 2 < hi := by omega
      have hmidlo : lo ≤ lo + (hi - lo) / 2 := by omega
      simp only [ls_get _ hmidlt, lsEpoch_fold]
      by_cases hle : lsEpoch (lo + (hi - lo) / 2) ≤ jd
      · rw [if_pos hle]
        obtain ⟨r, hr, h1, h2, h3, h4⟩ :=
          ih (hi - (lo + (hi - lo) / 2 + 1)) (by omega) (lo + (hi - lo) / 2 + 1) hi
            rfl (by omega) h28
            (fun (k : Nat) hk =>
              le_trans (lsEpoch_mono k (lo + (hi - lo) / 2) (by omega) hmidlt) hle)
            habove
        exact ⟨r, hr, by omega, h2, h3, h4⟩
      · rw [if_neg hle]
        obtain ⟨r, hr, h1, h2, h3, h4⟩ :=
          ih ((lo + (hi - lo) / 2) - lo) (by omega) lo (lo + (hi - lo) / 2)
            rfl (by omega) (by omega) hbelow
            (fun (k : Nat) hk hk28 =>
              lt_of_lt_of_le (lt_of_not_le hle) (lsEpoch_mono _ k hk hk28))
        exact ⟨r, hr, h1, by omega, h3, h4⟩
    · rw [dif_neg h]
      have : lo = hi := by omega
      subst this
      exact ⟨lo, rfl, le_refl lo, le_refl lo, hbelow, habove⟩

/-- Canonical specification of tai_minus_utc: the result is 10 plus the number
of table entries at or before the query, minus one (10 when none applies). -/
lemma tai_minus_utc_spec (jd : ℚ) :
    ∃ r : Nat, r ≤ 28 ∧
      tai_minus_utc jd = some (if r = 0 then 10 else 10 + ((r : ℚ) - 1)) ∧
      (∀ k, k < r → lsEpoch k ≤ jd) ∧
      (∀ k, r ≤ k → k < 28 → jd < lsEpoch k) := by
  obtain ⟨r, hr, h1, h2, h3, h4⟩ :=
    lsLoop_spec jd 28 0 28 rfl (by omega) (le_refl 28)
      (fun (k : Nat) hk => absurd hk (Nat.not_lt_zero k))
      (fun (k : Nat) hk hk28 => absurd (Nat.lt_of_le_of_lt hk hk28) (Nat.lt_irrefl 28))
  refine ⟨r, h2, ?_, h3, h4⟩
  unfold tai_minus_utc
  rw [LEAP_len, hr]
  dsimp only
  by_cases hr0 : r = 0
  · rw [if_pos hr0, if_pos hr0]
    norm_num
  · rw [if_neg hr0, if_neg hr0, ls_get (r - 1) (by omega)]
    dsimp only
    rw [lsVal (r - 1) (by omega)]
    have hc : ((r - 1 : Nat) : ℚ) = (r : ℚ) - 1 := by
      push_cast [Nat.cast_sub (by omega : 1 ≤ r)]
      ring
    rw [hc]

/-! ## Claim C7 -/

/-- C7: the leap-second lookup is monotonically non-decreasing in the query
epoch, and every query strictly before the first table entry (JD 2441317.5)
returns exactly the initial constant 10 s. -/
theorem tai_minus_utc_monotone_and_initial :
    (∀ x y : ℚ, x ≤ y → ∀ u v,
      tai_minus_utc x = some u → tai_minus_utc y = some v → u ≤ v) ∧
    (∀ x : ℚ, x < 2441317.5 → tai_minus_utc x = some 10) := by
  constructor
  · intro x y hxy u v hu hv
    obtain ⟨rx, hrx28, hrx, hx3, hx4⟩ := tai_minus_utc_spec x
    obtain ⟨ry, hry28, hry, hy3, hy4⟩ := tai_minus_utc_spec y
    rw [hu] at hrx
    rw [hv] at hry
    have hru : u = if rx = 0 then 10 else 10 + ((rx : ℚ) - 1) :=
      Option.some_injective _ hrx
    have hrv : v = if ry = 0 then 10 else 10 + ((ry : ℚ) - 1) :=
      Option.some_injective _ hry
    have hrxy : rx ≤ ry := by
      by_contra hcon
      push_neg at hcon
      have h1 : lsEpoch ry ≤ x := hx3 ry hcon
      have h2 : y < lsEpoch ry := hy4 ry (le_refl ry) (by omega)
      linarith
    rw [hru, hrv]
    by_cases h0 : rx = 0
    · rw [if_pos h0]
      by_cases h0' : ry = 0
      · rw [if_pos h0']
      · rw [if_neg h0']
        have : (1 : ℚ) ≤ (ry : ℚ) := by exact_mod_cast Nat.one_le_iff_ne_zero.mpr h0'
        linarith
    · rw [if_neg h0, if_neg (by omega : ¬ry = 0)]
      have : (rx : ℚ) ≤ (ry : ℚ) := by exact_mod_cast hrxy
      linarith
  · intro x hx
    obtain ⟨r, hr28, hr, h3, h4⟩ := tai_minus_utc_spec x
    have hr0 : r = 0 := by
      by_contra hcon
      have h1 : lsEpoch 0 ≤ x := h3 0 (by omega)
      rw [lsEpoch_zero] at h1
      linarith
    rw [hr0] at hr
    simpa using hr

/-- Witness for C7 at the concrete queries x = 0 and y = 1. -/
theorem tai_minus_utc_monotone_and_initial_witness :
    ((0 : ℚ) ≤ 1 ∧ tai_minus_utc 0 = some 10 ∧ tai_minus_utc 1 = some 10 ∧
      (10 : ℚ) ≤ 10) ∧
    ((0 : ℚ) < 2441317.5 ∧ tai_minus_utc 0 = some 10) := by
  have h0 : tai_minus_utc 0 = some 10 :=
    tai_minus_utc_monotone_and_initial.2 0 (by norm_num)
  have h1 : tai_minus_utc 1 = some 10 :=
    tai_minus_utc_monotone_and_initial.2 1 (by norm_num)
  exact ⟨⟨by norm_num, h0, h1,
    tai_minus_utc_monotone_and_initial.1 0 1 (by norm_num) 10 10 h0 h1⟩,
    ⟨by norm_num, h0⟩⟩

/-- Two counts satisfying the search postcondition at the same query agree. -/
lemma ls_count_unique (x : ℚ) (r r' : Nat) (hr : r ≤ 28) (hr' : r' ≤ 28)
    (h1 : ∀ k, k < r → lsEpoch k ≤ x) (h2 : ∀ k, r ≤ k → k < 28 → x < lsEpoch k)
    (h1' : ∀ k, k < r' → lsEpoch k ≤ x) (h2' : ∀ k, r' ≤ k → k < 28 → x < lsEpoch k) :
    r = r' := by
  rcases Nat.lt_trichotomy r r' with h | h | h
  · have ha : lsEpoch r ≤ x := h1' r h
    have hb : x < lsEpoch r := h2 r (le_refl r) (by omega)
    linarith
  · exact h
  · have ha : lsEpoch r' ≤ x := h1 r' h
    have hb : x < lsEpoch r' := h2' r' (le_refl r') (by omega)
    linarith

/-- Determine the lookup result from the search postcondition. -/
lemma tai_minus_utc_eval (x : ℚ) (r : Nat) (hr : r ≤ 28)
    (h1 : ∀ k, k < r → lsEpoch k ≤ x) (h2 : ∀ k, r ≤ k → k < 28 → x < lsEpoch k) :
    tai_minus_utc x = some (if r = 0 then 10 else 10 + ((r : ℚ) - 1)) := by
  obtain ⟨r2, hr2, hval, h3, h4⟩ := tai_minus_utc_spec x
  have : r2 = r := ls_count_unique x r2 r hr2 hr h3 h4 h1 h2
  rw [this] at hval
  exact hval

/-! ## Claim C6 -/

/-- C6: whenever no leap-second table entry lies strictly between the
approximate and the refined UTC query point, the Unix civil counter inverse
is exact: to_jd_tt after from_jd_tt returns the original JD(TT). -/
theorem unix_from_to_roundtrip (tt : ℚ)
    (hno : ∀ k, k < 28 →
      ¬(unix_approx_utc tt < lsEpoch k ∧ lsEpoch k ≤ unix_refined_utc tt)) :
    (UnixTime.from_jd_tt tt).bind UnixTime.to_jd_tt = some tt := by
  obtain ⟨r, hr28, hval, h3, h4⟩ := tai_minus_utc_spec (unix_approx_utc tt)
  have hgetD : (tai_minus_utc (unix_approx_utc tt)).getD 0
      = (if r = 0 then 10 else 10 + ((r : ℚ) - 1)) := by
    rw [hval]
    rfl
  have hls_le : (if r = 0 then (10 : ℚ) else 10 + ((r : ℚ) - 1)) ≤ 37 := by
    by_cases h0 : r = 0
    · rw [if_pos h0]
      norm_num
    · rw [if_neg h0]
      have : (r : ℚ) ≤ 28 := by exact_mod_cast hr28
      linarith
  have hrefined : unix_refined_utc tt
      = tt - ((if r = 0 then (10 : ℚ) else 10 + ((r : ℚ) - 1)) + TT_MINUS_TAI_SECS) / 86400 := by
    rw [unix_refined_utc, hgetD]
  have happrox_le : unix_approx_utc tt ≤ unix_refined_utc tt := by
    rw [hrefined, unix_approx_utc, TT_MINUS_TAI_SECS]
    norm_num
    linarith [hls_le]
  have htai_refined : tai_minus_utc (unix_refined_utc tt)
      = some (if r = 0 then 10 else 10 + ((r : ℚ) - 1)) := by
    refine tai_minus_utc_eval _ r hr28 ?_ ?_
    · intro k hk
      exact le_trans (h3 k hk) happrox_le
    · intro k hk hk28
      by_contra hcon
      push_neg at hcon
      exact hno k hk28 ⟨h4 k hk hk28, hcon⟩
  simp only [UnixTime.from_jd_tt, UnixTime.to_jd_tt]
  rw [show tt - (37.0 + TT_MINUS_TAI_SECS) / 86400 = unix_approx_utc tt from rfl, hval]
  dsimp only [Option.bind]
  have harg : tt - ((if r = 0 then (10 : ℚ) else 10 + ((r : ℚ) - 1)) + TT_MINUS_TAI_SECS) / 86400
      - UNIX_EPOCH_JD + UNIX_EPOCH_JD = unix_refined_utc tt := by
    rw [hrefined]
    ring
  rw [harg, htai_refined]
  rw [hrefined]
  norm_num

/-- Witness for C6 at the JD(TT) instant whose approximate UTC query point is
exactly J2000 (leap count 32, no table entry near). -/
theorem unix_from_to_roundtrip_witness :
    (∀ k, k < 28 →
      ¬(unix_approx_utc (2451545 + 69.184 / 86400) < lsEpoch k ∧
        lsEpoch k ≤ unix_refined_utc (2451545 + 69.184 / 86400))) ∧
    (UnixTime.from_jd_tt (2451545 + 69.184 / 86400)).bind UnixTime.to_jd_tt
      = some (2451545 + 69.184 / 86400) := by
  have happrox : unix_approx_utc (2451545 + 69.184 / 86400 : ℚ) = 2451545 := by
    rw [unix_approx_utc, TT_MINUS_TAI_SECS]
    norm_num
  have e22 : lsEpoch 22 = 2451179.5 := by norm_num [lsEpoch, LEAP_SECONDS, List.getD]
  have e23 : lsEpoch 23 = 2453736.5 := by norm_num [lsEpoch, LEAP_SECONDS, List.getD]
  have heval : tai_minus_utc (2451545 : ℚ) = some 32 := by
    have h1 : ∀ k, k < 23 → lsEpoch k ≤ (2451545 : ℚ) := by
      intro k hk
      have hm := lsEpoch_mono k 22 (by omega) (by omega)
      rw [e22] at hm
      linarith
    have h2 : ∀ k, 23 ≤ k → k < 28 → (2451545 : ℚ) < lsEpoch k := by
      intro k hk1 hk2
      have hm := lsEpoch_mono 23 k hk1 hk2
      rw [e23] at hm
      linarith
    have h := tai_minus_utc_eval 2451545 23 (by omega) h1 h2
    rw [h]
    norm_num
  have hrefined : unix_refined_utc (2451545 + 69.184 / 86400 : ℚ)
      = 2451545 + 5 / 86400 := by
    rw [unix_refined_utc, happrox, heval, TT_MINUS_TAI_SECS]
    norm_num [Option.getD_some]
  have hno : ∀ k, k < 28 →
      ¬(unix_approx_utc (2451545 + 69.184 / 86400) < lsEpoch k ∧
        lsEpoch k ≤ unix_refined_utc (2451545 + 69.184 / 86400)) := by
    intro k hk
    rw [happrox, hrefined]
    rintro ⟨ha, hb⟩
    by_cases hk23 : k ≤ 22
    · have hm := lsEpoch_mono k 22 hk23 (by omega)
      rw [e22] at hm
      linarith
    · have hm := lsEpoch_mono 23 k (by omega) hk
      rw [e23] at hm
      linarith
  exact ⟨hno, unix_from_to_roundtrip _ hno⟩

/-! ## Claim C10 -/

/-- The TCG forward map undoes the TCG inverse map exactly, because the
inverse divides the drift term by 1 − L_G. -/
lemma tcg_to_from (tt : ℚ) : TCG.to_jd_tt (TCG.from_jd_tt tt) = tt := by
  unfold TCG.to_jd_tt TCG.from_jd_tt
  have h : (1 : ℚ) - L_G ≠ 0 := by rw [L_G]; norm_num
  field_simp
  ring

/-- C10: in exact arithmetic TCG::from_jd_tt is the exact inverse of
TCG::to_jd_tt — not merely a first-order approximation — so the round trip
through TCG has no method error. -/
theorem tcg_roundtrip_exact :
    ∀ tt : ℚ, TCG.to_jd_tt (TCG.from_jd_tt tt) = tt :=
  tcg_to_from

/-! ## Claim C5: conversion structure and uniform-scale round trips -/

lemma scale_to_affine (s r : ℚ → ℚ) (A : Scale) (hA : A.isUniformAffine = true)
    (v : ℚ) : Scale.to_jd_tt s r A v = some (A.toPure v) := by
  cases A <;> simp_all [Scale.to_jd_tt, Scale.toPure, Scale.isUniformAffine]

lemma scale_from_affine (s r : ℚ → ℚ) (A : Scale) (hA : A.isUniformAffine = true)
    (x : ℚ) : Scale.from_jd_tt s r A x = some (A.fromPure x) := by
  cases A <;> simp_all [Scale.from_jd_tt, Scale.fromPure, Scale.isUniformAffine]

/-- Method error of an inverse-then-forward pass on the canonical axis. -/
lemma pure_to_from_bound (B : Scale) (hB : B.isUniformAffine = true) (x : ℚ) :
    |Scale.toPure B (Scale.fromPure B x) - x| ≤ L_B ^ 2 * |x - TCG_EPOCH_T0| := by
  have hnn : (0 : ℚ) ≤ L_B ^ 2 * |x - TCG_EPOCH_T0| :=
    mul_nonneg (by positivity) (abs_nonneg _)
  cases B <;> simp_all [Scale.toPure, Scale.fromPure, Scale.isUniformAffine]
  · -- TCG: exact
    rw [tcg_to_from]
    simpa using hnn
  · -- TCB
    have he : TCB.to_jd_tt (TCB.from_jd_tt x) - x = -(L_B ^ 2 * (x - TCG_EPOCH_T0)) := by
      unfold TCB.to_jd_tt TCB.from_jd_tt
      ring
    rw [he, abs_neg, abs_mul, abs_of_nonneg (by positivity : (0:ℚ) ≤ L_B ^ 2)]

/-- Method error of a forward-then-inverse pass, in terms of the canonical
image of the starting value. -/
lemma pure_from_to_bound (A : Scale) (hA : A.isUniformAffine = true) (v : ℚ) :
    |Scale.fromPure A (Scale.toPure A v) - v|
      ≤ 1.01 * (L_B ^ 2 * |Scale.toPure A v - TCG_EPOCH_T0|) := by
  have hnn : (0 : ℚ) ≤ L_B ^ 2 * |Scale.toPure A v - TCG_EPOCH_T0| :=
    mul_nonneg (by positivity) (abs_nonneg _)
  cases A <;> simp_all [Scale.toPure, Scale.fromPure, Scale.isUniformAffine] <;>
    try linarith
  · -- TCG: exact both ways
    have he : TCG.from_jd_tt (TCG.to_jd_tt v) = v := by
      unfold TCG.to_jd_tt TCG.from_jd_tt
      have h : (1 : ℚ) - L_G ≠ 0 := by rw [L_G]; norm_num
      field_simp
      ring
    rw [he]
    simpa using by linarith
  · -- TCB
    have he : TCB.from_jd_tt (TCB.to_jd_tt v) - v = -(L_B ^ 2 * (v - TCG_EPOCH_T0)) := by
      unfold TCB.to_jd_tt TCB.from_jd_tt
      ring
    have hx : TCB.to_jd_tt v - TCG_EPOCH_T0 = (v - TCG_EPOCH_T0) * (1 - L_B) := by
      unfold TCB.to_jd_tt
      ring
    rw [he, abs_neg, abs_mul, hx, abs_mul,
      abs_of_nonneg (by positivity : (0:ℚ) ≤ L_B ^ 2),
      abs_of_nonneg (by rw [L_B]; norm_num : (0:ℚ) ≤ 1 - L_B)]
    have hLB : (0:ℚ) ≤ L_B ^ 2 * |v - TCG_EPOCH_T0| :=
      mul_nonneg (by positivity) (abs_nonneg _)
    have h101 : (1:ℚ) ≤ 1.01 * (1 - L_B) := by rw [L_B]; norm_num
    nlinarith [abs_nonneg (v - TCG_EPOCH_T0)]

/-- Every affine inverse map has slope within 1 percent of one. -/
lemma pure_from_lipschitz (A : Scale) (hA : A.isUniformAffine = true) (x y : ℚ) :
    |Scale.fromPure A x - Scale.fromPure A y| ≤ 1.01 * |x - y| := by
  cases A <;> simp_all [Scale.fromPure, Scale.isUniformAffine] <;>
    try linarith [abs_nonneg (x - y)]
  · -- TCG
    have he : TCG.from_jd_tt x - TCG.from_jd_tt y = (x - y) * (1 + L_G / (1 - L_G)) := by
      unfold TCG.from_jd_tt
      have h : (1 : ℚ) - L_G ≠ 0 := by rw [L_G]; norm_num
      field_simp
      ring
    rw [he, abs_mul, abs_of_nonneg (by rw [L_G]; norm_num : (0:ℚ) ≤ 1 + L_G / (1 - L_G))]
    have hsl : (1:ℚ) + L_G / (1 - L_G) ≤ 101 / 100 := by rw [L_G]; norm_num
    calc |x - y| * (1 + L_G / (1 - L_G))
        ≤ |x - y| * (101 / 100) := mul_le_mul_of_nonneg_left hsl (abs_nonneg _)
      _ = 1.01 * |x - y| := by
          rw [show (1.01 : ℚ) = 101 / 100 from by norm_num]
          ring
  · -- TCB
    have he : TCB.from_jd_tt x - TCB.from_jd_tt y = (x - y) * (1 + L_B) := by
      unfold TCB.from_jd_tt
      ring
    rw [he, abs_mul, abs_of_nonneg (by rw [L_B]; norm_num : (0:ℚ) ≤ 1 + L_B)]
    have hsl : (1:ℚ) + L_B ≤ 101 / 100 := by rw [L_B]; norm_num
    calc |x - y| * (1 + L_B)
        ≤ |x - y| * (101 / 100) := mul_le_mul_of_nonneg_left hsl (abs_nonneg _)
      _ = 1.01 * |x - y| := by
          rw [show (1.01 : ℚ) = 101 / 100 from by norm_num]
          ring

/-- C5: cross-scale conversion is exactly one forward and one inverse call
through the canonical JD(TT) axis for every pair of scales; and for every
pair of uniform affine scales and every value whose canonical image is
within two million days of the 1977 reference epoch, the A to B to A round
trip returns the value to within 1e-9 days. -/
theorem cross_scale_structure_and_roundtrip (s r : ℚ → ℚ) :
    (∀ (A B : Scale) (v : ℚ),
      Time.to s r A B v = (Scale.to_jd_tt s r A v).bind (Scale.from_jd_tt s r B)) ∧
    (∀ (A B : Scale) (v : ℚ),
      A.isUniformAffine = true → B.isUniformAffine = true →
      |Scale.toPure A v - TCG_EPOCH_T0| ≤ 2000000 →
      ∃ w u, Time.to s r A B v = some w ∧ Time.to s r B A w = some u ∧
        |u - v| ≤ 1e-9) := by
  constructor
  · intro A B v
    rfl
  · intro A B v hA hB hbound
    refine ⟨Scale.fromPure B (Scale.toPure A v),
      Scale.fromPure A (Scale.toPure B (Scale.fromPure B (Scale.toPure A v))), ?_, ?_, ?_⟩
    · rw [Time.to, scale_to_affine s r A hA]
      simpa using scale_from_affine s r B hB (Scale.toPure A v)
    · rw [Time.to, scale_to_affine s r B hB]
      simpa using scale_from_affine s r A hA _
    · set x := Scale.toPure A v with hx
      set y := Scale.toPure B (Scale.fromPure B x) with hy
      have hδ : |y - x| ≤ L_B ^ 2 * |x - TCG_EPOCH_T0| := pure_to_from_bound B hB x
      have htri : |Scale.fromPure A y - v|
          ≤ |Scale.fromPure A y - Scale.fromPure A x| + |Scale.fromPure A x - v| :=
        abs_sub_le _ _ _
      have hlip : |Scale.fromPure A y - Scale.fromPure A x| ≤ 1.01 * |y - x| :=
        pure_from_lipschitz A hA y x
      have hback : |Scale.fromPure A x - v| ≤ 1.01 * (L_B ^ 2 * |x - TCG_EPOCH_T0|) :=
        pure_from_to_bound A hA v
      have hnum : 1.01 * (L_B ^ 2 * (2000000 : ℚ)) + 1.01 * (L_B ^ 2 * 2000000)
          ≤ 1e-9 := by
        rw [L_B]
        norm_num
      have hLB2 : (0:ℚ) ≤ L_B ^ 2 := by positivity
      nlinarith [abs_nonneg (y - x), abs_nonneg (x - TCG_EPOCH_T0)]

/-- Witness for C5: the MJD-TCB round trip at MJD 51544.5 (J2000). -/
theorem cross_scale_structure_and_roundtrip_witness :
    Scale.isUniformAffine .MJD = true ∧ Scale.isUniformAffine .TCB = true ∧
    |Scale.toPure .MJD 51544.5 - TCG_EPOCH_T0| ≤ 2000000 ∧
    (∃ w u, Time.to (fun _ => 0) (fun _ => 0) .MJD .TCB 51544.5 = some w ∧
      Time.to (fun _ => 0) (fun _ => 0) .TCB .MJD w = some u ∧
      |u - 51544.5| ≤ 1e-9) :=
  ⟨rfl, rfl, by norm_num [Scale.toPure, MJD_EPOCH, TCG_EPOCH_T0, abs_le],
   (cross_scale_structure_and_roundtrip (fun _ => 0) (fun _ => 0)).2 .MJD .TCB 51544.5
     rfl rfl (by norm_num [Scale.toPure, MJD_EPOCH, TCG_EPOCH_T0, abs_le])⟩

/-- Counterexample to the unrestricted C5 round trip: converting the JD(TT)
instant fifty seconds after the 1972-07-01 leap insertion to UnixTime and
back gains one leap second, an error of 1/86400 day, far above 1e-9. -/
theorem cross_scale_roundtrip_counterexample :
    Time.to (fun _ => 0) (fun _ => 0) .JD .UnixTime (2441499.5 + 50 / 86400)
      = some (912 + 7.816 / 86400) ∧
    Time.to (fun _ => 0) (fun _ => 0) .UnixTime .JD (912 + 7.816 / 86400)
      = some (2441499.5 + 51 / 86400) ∧
    ¬(|(2441499.5 + 51 / 86400 : ℚ) - (2441499.5 + 50 / 86400)| ≤ 1e-9) := by
  have e1 : lsEpoch 1 = 2441499.5 := by norm_num [lsEpoch, LEAP_SECONDS, List.getD]
  have e2 : lsEpoch 2 = 2441683.5 := by norm_num [lsEpoch, LEAP_SECONDS, List.getD]
  have t1 : tai_minus_utc ((2441499.5 + 50 / 86400) - (37.0 + TT_MINUS_TAI_SECS) / 86400)
      = some 10 := by
    have h := tai_minus_utc_eval ((2441499.5 + 50 / 86400) - (37.0 + TT_MINUS_TAI_SECS) / 86400)
      1 (by omega) ?_ ?_
    · rw [h]
      norm_num
    · intro k hk
      have hk0 : k = 0 := by omega
      rw [hk0, lsEpoch_zero, TT_MINUS_TAI_SECS]
      norm_num
    · intro k hk hk28
      have hm := lsEpoch_mono 1 k hk hk28
      rw [e1] at hm
      rw [TT_MINUS_TAI_SECS]
      norm_num
      linarith
  have t2 : tai_minus_utc (912 + 7.816 / 86400 + UNIX_EPOCH_JD) = some 11 := by
    have h := tai_minus_utc_eval (912 + 7.816 / 86400 + UNIX_EPOCH_JD) 2 (by omega) ?_ ?_
    · rw [h]
      norm_num
    · intro k hk
      interval_cases k
      · rw [lsEpoch_zero, UNIX_EPOCH_JD]
        norm_num
      · rw [e1, UNIX_EPOCH_JD]
        norm_num
    · intro k hk hk28
      have hm := lsEpoch_mono 2 k hk hk28
      rw [e2] at hm
      rw [UNIX_EPOCH_JD]
      norm_num
      linarith
  refine ⟨?_, ?_, ?_⟩
  · show (UnixTime.from_jd_tt (2441499.5 + 50 / 86400)) = _
    simp only [UnixTime.from_jd_tt]
    rw [t1]
    rw [TT_MINUS_TAI_SECS, UNIX_EPOCH_JD]
    norm_num
  · show (UnixTime.to_jd_tt (912 + 7.816 / 86400)).bind _ = _
    simp only [UnixTime.to_jd_tt]
    rw [t2]
    rw [TT_MINUS_TAI_SECS]
    show some _ = _
    norm_num [UNIX_EPOCH_JD]
  · rw [show (2441499.5 + 51 / 86400 : ℚ) - (2441499.5 + 50 / 86400) = 1 / 86400 from by
      norm_num]
    rw [abs_of_nonneg (by norm_num : (0:ℚ) ≤ 1 / 86400)]
    norm_num

/-! ## Dispatch helpers for the ΔT regimes -/

/-- In the tabulated regime the dispatcher selects delta_t_table. -/
lemma delta_t_dispatch_table (jd : ℚ) (h1 : 2305447.5 ≤ jd) (h2 : jd < 2448622.5) :
    delta_t_seconds_from_ut jd = delta_t_table jd := by
  unfold delta_t_seconds_from_ut
  rw [if_neg (not_lt.mpr (by linarith)), if_neg (not_lt.mpr h1),
    if_pos (by rw [JD_1992]; exact h2)]

/-- In the observed regime the dispatcher selects delta_t_observed. -/
lemma delta_t_dispatch_observed (jd : ℚ) (h1 : 2448622.5 ≤ jd) (h2 : jd < 2461041.5) :
    delta_t_seconds_from_ut jd = delta_t_observed jd := by
  unfold delta_t_seconds_from_ut
  rw [if_neg (not_lt.mpr (by linarith)), if_neg (not_lt.mpr (by linarith)),
    if_neg (not_lt.mpr (by rw [JD_1992]; exact h1)), if_pos (by rw [JD_2026]; exact h2)]

/-- Past 2026.0 the dispatcher selects delta_t_extrapolated. -/
lemma delta_t_dispatch_extrapolated (jd : ℚ) (h : 2461041.5 ≤ jd) :
    delta_t_seconds_from_ut jd = delta_t_extrapolated jd := by
  unfold delta_t_seconds_from_ut
  rw [if_neg (not_lt.mpr (by linarith)), if_neg (not_lt.mpr (by linarith)),
    if_neg (not_lt.mpr (by rw [JD_1992]; linarith)),
    if_neg (not_lt.mpr (by rw [JD_2026]; exact h))]

/-- At the tail of the observed table (fractional year at least 2025) the
observed interpolation returns the last observed value, 69.36 s. -/
lemma delta_t_observed_tail (jd : ℚ) (h1 : 2460676.25 ≤ jd) (h2 : jd < 2461041.5) :
    delta_t_observed jd = some 69.36 := by
  have h1n : 2460676 + 1/4 ≤ jd := by norm_num at h1 ⊢; linarith
  have h2n : jd < 2461041 + 1/2 := by norm_num at h2 ⊢; linarith
  have hfloor : ⌊2000 + (jd - J2000) / 365.25 - OBSERVED_START_YEAR⌋ = 33 := by
    rw [J2000, OBSERVED_START_YEAR, Int.floor_eq_iff]
    norm_num
    constructor <;> linarith
  simp only [delta_t_observed, rust_as_usize]
  rw [hfloor]
  norm_num [OBSERVED_TERMS, OBSERVED_DT, show Int.toNat 33 = 33 from rfl]

/-- Past 2026.0 ΔT is the last observed value plus the linear secular rate. -/
lemma delta_t_extrapolated_eq (jd : ℚ) :
    delta_t_extrapolated jd
      = some (69.36 + 0.02 * ((2000 + (jd - 2451545) / 365.25) - 2026)) := by
  unfold delta_t_extrapolated
  norm_num [OBSERVED_TERMS, OBSERVED_DT, OBSERVED_END_YEAR, OBSERVED_START_YEAR,
    EXTRAPOLATION_RATE, J2000]

/-! ## Claims C1 and C2 -/

/-- C1: for every Julian Day on the UT axis from the last observed ΔT anchor
epoch (year 2025.0, JD 2460676.25) up to ten years past it, the ΔT function
returns a plausible value below 80 s (indeed between 69 and 80 s), and beyond
the observed data (year 2026.0 onwards) it extrapolates linearly from the most
recent observed value 69.36 s at the secular rate 0.02 s/year. -/
theorem delta_t_bounded_past_anchor_and_linear :
    (∀ jd : ℚ, 2460676.25 ≤ jd → jd ≤ 2464328.75 →
      ∃ v, delta_t_seconds_from_ut jd = some v ∧ 69 < v ∧ v < 80) ∧
    (∀ jd : ℚ, 2461041.5 ≤ jd →
      delta_t_seconds_from_ut jd
        = some (69.36 + 0.02 * ((2000 + (jd - 2451545) / 365.25) - 2026))) := by
  constructor
  · intro jd h1 h2
    by_cases hc : jd < 2461041.5
    · refine ⟨69.36, ?_, by norm_num, by norm_num⟩
      rw [delta_t_dispatch_observed jd (by linarith) hc]
      exact delta_t_observed_tail jd h1 hc
    · push_neg at hc
      refine ⟨69.36 + 0.02 * ((2000 + (jd - 2451545) / 365.25) - 2026), ?_, ?_, ?_⟩
      · rw [delta_t_dispatch_extrapolated jd hc]
        exact delta_t_extrapolated_eq jd
      · norm_num
        linarith
      · norm_num
        linarith
  · intro jd h
    rw [delta_t_dispatch_extrapolated jd h]
    exact delta_t_extrapolated_eq jd

/-- Witness for C1 at JD 2462502.5 (the year 2030). -/
theorem delta_t_bounded_past_anchor_and_linear_witness :
    (∃ v, delta_t_seconds_from_ut 2462502.5 = some v ∧ 69 < v ∧ v < 80) ∧
    delta_t_seconds_from_ut 2462502.5
      = some (69.36 + 0.02 * ((2000 + ((2462502.5 : ℚ) - 2451545) / 365.25) - 2026)) :=
  ⟨delta_t_bounded_past_anchor_and_linear.1 2462502.5 (by norm_num) (by norm_num),
   delta_t_bounded_past_anchor_and_linear.2 2462502.5 (by norm_num)⟩

/-- C2 (code bug): at the biennial table first entry epoch JD 2312752.5 the
interpolation returns the SECOND table entry, 115 s, not the first entry
124 s that the specification requires; 115 is not within 1e-6 s of 124. -/
theorem delta_t_at_table_start_returns_second_entry :
    delta_t_seconds_from_ut 2312752.5 = some 115 ∧
    ¬(|(115 : ℚ) - 124| < 1e-6) := by
  constructor
  · rw [delta_t_dispatch_table 2312752.5 (by norm_num) (by norm_num)]
    unfold delta_t_table rust_as_usize
    norm_num [TERMS, DELTA_T]
  · norm_num

/-! ## Claim C4: the TT to UT to TT round trip -/

/-- In the medieval regime the dispatcher selects delta_t_medieval. -/
lemma delta_t_dispatch_medieval (jd : ℚ) (h1 : 2067314.5 ≤ jd) (h2 : jd < 2305447.5) :
    delta_t_seconds_from_ut jd = some (delta_t_medieval jd) := by
  unfold delta_t_seconds_from_ut
  rw [if_neg (not_lt.mpr h1), if_pos h2]

/-- Just past the medieval/table boundary the biennial interpolation clips
its index to zero and extrapolates backwards linearly (the quadratic term
cancels because the first three differences are equal). -/
lemma delta_t_table_near_start (jd : ℚ) (h1 : 2305447.5 ≤ jd) (h2 : jd ≤ 2305448) :
    delta_t_table jd = some (115 - 9 * ((jd - 2312752.5) / 730.5)) := by
  have hfloor : ⌊(jd - 2312752.5) / 730.5⌋ = -10 := by
    rw [Int.floor_eq_iff]
    push_cast
    constructor
    · rw [le_div_iff (by norm_num : (0:ℚ) < 730.5)]
      norm_num
      linarith
    · rw [div_lt_iff (by norm_num : (0:ℚ) < 730.5)]
      norm_num
      linarith
  simp only [delta_t_table, rust_as_usize]
  rw [hfloor]
  norm_num [TERMS, DELTA_T, show Int.toNat (-10) = 0 from rfl]
  ring

/-- The three-iteration loop of UT::from_jd_tt, written as one equation. -/
lemma ut_from_value (tt d1 d2 d3 : ℚ)
    (h1 : delta_t_seconds_from_ut tt = some d1)
    (h2 : delta_t_seconds_from_ut (tt - d1 / 86400) = some d2)
    (h3 : delta_t_seconds_from_ut (tt - d2 / 86400) = some d3) :
    UT.from_jd_tt tt = some (tt - d3 / 86400) := by
  unfold UT.from_jd_tt
  rw [h1]
  dsimp only
  rw [h2]
  dsimp only
  rw [h3]

/-- UT::to_jd_tt, written as one equation. -/
lemma ut_to_value (ut d : ℚ) (h : delta_t_seconds_from_ut ut = some d) :
    UT.to_jd_tt ut = some (ut + d / 86400) := by
  unfold UT.to_jd_tt
  rw [h]

/-- Counterexample to the unrestricted C4 round trip: at JD(TT) 2305447.502,
just past the year-1600 boundary between the medieval polynomial and the
biennial table, ΔT jumps by about 64 s, the fixed-point iterates oscillate
across the discontinuity, and the round trip misses by about 7.45e-4 day. -/
theorem ut_roundtrip_counterexample :
    ((UT.from_jd_tt 2305447.502).bind UT.to_jd_tt).isSome = true ∧
    ¬(|((UT.from_jd_tt 2305447.502).bind UT.to_jd_tt).getD 2305447.502
        - 2305447.502| ≤ 1e-9) := by
  have h0 : delta_t_seconds_from_ut (2305447.502 : ℚ)
      = some (115 - 9 * (((2305447.502 : ℚ) - 2312752.5) / 730.5)) := by
    rw [delta_t_dispatch_table _ (by norm_num) (by norm_num)]
    exact delta_t_table_near_start _ (by norm_num) (by norm_num)
  have h1 : delta_t_seconds_from_ut
        ((2305447.502 : ℚ) - (115 - 9 * (((2305447.502 : ℚ) - 2312752.5) / 730.5)) / 86400)
      = some (delta_t_medieval
        ((2305447.502 : ℚ) - (115 - 9 * (((2305447.502 : ℚ) - 2312752.5) / 730.5)) / 86400)) :=
    delta_t_dispatch_medieval _ (by norm_num) (by norm_num)
  have h2 : delta_t_seconds_from_ut
        ((2305447.502 : ℚ) - delta_t_medieval
          ((2305447.502 : ℚ) - (115 - 9 * (((2305447.502 : ℚ) - 2312752.5) / 730.5)) / 86400)
          / 86400)
      = some (115 - 9 * ((((2305447.502 : ℚ) - delta_t_medieval
          ((2305447.502 : ℚ) - (115 - 9 * (((2305447.502 : ℚ) - 2312752.5) / 730.5)) / 86400)
          / 86400) - 2312752.5) / 730.5)) := by
    rw [delta_t_dispatch_table _
      (by norm_num [delta_t_medieval, JULIAN_CENTURY])
      (by norm_num [delta_t_medieval, JULIAN_CENTURY])]
    exact delta_t_table_near_start _
      (by norm_num [delta_t_medieval, JULIAN_CENTURY])
      (by norm_num [delta_t_medieval, JULIAN_CENTURY])
  have h3 : delta_t_seconds_from_ut
        ((2305447.502 : ℚ) - (115 - 9 * ((((2305447.502 : ℚ) - delta_t_medieval
          ((2305447.502 : ℚ) - (115 - 9 * (((2305447.502 : ℚ) - 2312752.5) / 730.5)) / 86400)
          / 86400) - 2312752.5) / 730.5)) / 86400)
      = some (delta_t_medieval
        ((2305447.502 : ℚ) - (115 - 9 * ((((2305447.502 : ℚ) - delta_t_medieval
          ((2305447.502 : ℚ) - (115 - 9 * (((2305447.502 : ℚ) - 2312752.5) / 730.5)) / 86400)
          / 86400) - 2312752.5) / 730.5)) / 86400)) :=
    delta_t_dispatch_medieval _
      (by norm_num [delta_t_medieval, JULIAN_CENTURY])
      (by norm_num [delta_t_medieval, JULIAN_CENTURY])
  have hfrom := ut_from_value _ _ _ _ h0 h1 h2
  have hto := ut_to_value _ _ h3
  rw [hfrom]
  dsimp only [Option.bind]
  rw [hto]
  refine ⟨rfl, ?_⟩
  rw [Option.getD_some, abs_le]
  rintro ⟨hL, _hR⟩
  norm_num [delta_t_medieval, JULIAN_CENTURY] at hL

/-- C4 (amended): on the modern extrapolated regime, where ΔT is a single
affine function, the three-iteration fixed point makes the round trip exact
to far better than 1e-9 day. -/
theorem ut_roundtrip_modern (tt : ℚ) (hlo : 2461042.5 ≤ tt) (hhi : tt ≤ 2497566.5) :
    ∃ w, (UT.from_jd_tt tt).bind UT.to_jd_tt = some w ∧ |w - tt| ≤ 1e-9 := by
  obtain ⟨F, hFdef⟩ : ∃ F : ℚ → ℚ,
      F = fun u => 69.36 + 0.02 * ((2000 + (u - 2451545) / 365.25) - 2026) := ⟨_, rfl⟩
  have hF : ∀ u : ℚ, 2461041.5 ≤ u → delta_t_seconds_from_ut u = some (F u) := by
    intro u hu
    rw [delta_t_dispatch_extrapolated u hu, delta_t_extrapolated_eq u]
    simp only [hFdef]
  have hFbound : ∀ u : ℚ, 2461041.5 ≤ u → u ≤ 2497567 → 69 ≤ F u ∧ F u ≤ 72 := by
    intro u hu1 hu2
    simp only [hFdef]
    norm_num
    constructor <;> linarith
  obtain ⟨u1, hu1def⟩ : ∃ u1 : ℚ, u1 = tt - F tt / 86400 := ⟨_, rfl⟩
  obtain ⟨u2, hu2def⟩ : ∃ u2 : ℚ, u2 = tt - F u1 / 86400 := ⟨_, rfl⟩
  obtain ⟨u3, hu3def⟩ : ∃ u3 : ℚ, u3 = tt - F u2 / 86400 := ⟨_, rfl⟩
  have hb0 := hFbound tt (by linarith) (by linarith)
  have hu1lo : 2461041.5 ≤ u1 := by
    rw [hu1def]
    linarith [hb0.2]
  have hu1hi : u1 ≤ 2497567 := by
    rw [hu1def]
    linarith [hb0.1]
  have hb1 := hFbound u1 hu1lo hu1hi
  have hu2lo : 2461041.5 ≤ u2 := by
    rw [hu2def]
    linarith [hb1.2]
  have hu2hi : u2 ≤ 2497567 := by
    rw [hu2def]
    linarith [hb1.1]
  have hb2 := hFbound u2 hu2lo hu2hi
  have hu3lo : 2461041.5 ≤ u3 := by
    rw [hu3def]
    linarith [hb2.2]
  have hfrom : UT.from_jd_tt tt = some u3 := by
    rw [hu3def]
    exact ut_from_value tt (F tt) (F u1) (F u2)
      (hF tt (by linarith))
      (by rw [← hu1def]; exact hF u1 hu1lo)
      (by rw [← hu2def]; exact hF u2 hu2lo)
  have hto : UT.to_jd_tt u3 = some (u3 + F u3 / 86400) :=
    ut_to_value u3 (F u3) (hF u3 hu3lo)
  have hcomb : (UT.from_jd_tt tt).bind UT.to_jd_tt = some (u3 + F u3 / 86400) := by
    rw [hfrom]
    dsimp only [Option.bind]
    exact hto
  refine ⟨u3 + F u3 / 86400, hcomb, ?_⟩
  rw [hu3def, hu2def, hu1def]
  simp only [hFdef]
  rw [abs_le]
  constructor
  · norm_num
    linarith
  · norm_num
    linarith

/-- Witness for the amended C4 at JD(TT) 2470000. -/
theorem ut_roundtrip_modern_witness :
    (2461042.5 : ℚ) ≤ 2470000 ∧ (2470000 : ℚ) ≤ 2497566.5 ∧
    (∃ w, (UT.from_jd_tt 2470000).bind UT.to_jd_tt = some w ∧ |w - 2470000| ≤ 1e-9) :=
  ⟨by norm_num, by norm_num,
   ut_roundtrip_modern 2470000 (by norm_num) (by norm_num)⟩

/-! ## Lemmas about the merge loop -/

lemma intersect_list_nil_left {α : Type} [LinearOrder α] (b : List (Interval α)) :
    intersect_list [] b = [] := by
  rw [intersect_list.eq_def]

lemma intersect_list_nil_right {α : Type} [LinearOrder α] (a : List (Interval α)) :
    intersect_list a [] = [] := by
  cases a <;> rw [intersect_list.eq_def]

/-- The index loop computes the head-recursive function on the suffixes. -/
lemma intersect_loop_eq_list {α : Type} [LinearOrder α] :
    ∀ (n : Nat) (a b : List (Interval α)) (i j : Nat),
      a.length + b.length - (i + j) = n →
      intersect_loop a b i j = intersect_list (a.drop i) (b.drop j) := by
  intro n
  induction n using Nat.strong_induction_on with
  | _ n ih =>
    intro a b i j hn
    rw [intersect_loop]
    by_cases h : i < a.length ∧ j < b.length
    · rw [dif_pos h]
      rw [List.drop_eq_get_cons h.1, List.drop_eq_get_cons h.2]
      rw [intersect_list]
      simp only [intersect_advance]
      by_cases hst : (a.get ⟨i, h.1⟩).stop ≤ (b.get ⟨j, h.2⟩).stop
      · simp only [if_pos hst]
        rw [ih (a.length + b.length - (i + 1 + j)) (by omega) a b (i + 1) j rfl]
        rw [List.drop_eq_get_cons h.2]
      · simp only [if_neg hst]
        rw [ih (a.length + b.length - (i + (j + 1))) (by omega) a b i (j + 1) rfl]
        rw [List.drop_eq_get_cons h.1]
    · rw [dif_neg h]
      rcases Nat.lt_or_ge i a.length with hi | hi
      · have hj : b.length ≤ j := by omega
        rw [List.drop_eq_nil_of_le hj, intersect_list_nil_right]
      · rw [List.drop_eq_nil_of_le hi, intersect_list_nil_left]

lemma intersect_periods_eq_list {α : Type} [LinearOrder α]
    (a b : List (Interval α)) : intersect_periods a b = intersect_list a b := by
  rw [intersect_periods, intersect_loop_eq_list (a.length + b.length - 0) a b 0 0 rfl]
  rfl

/-! ## Claim C3 -/

/-- Counterexample to C3 as stated: when the two current head intervals end
simultaneously, the merge advances only the first list's index: the advance
step at indices (0,0) yields (1,0), not (1,1). -/
theorem intersect_advance_tie_counterexample :
    (Interval.mk (0:ℚ) 2).stop = (Interval.mk (0:ℚ) 2).stop ∧
    intersect_advance (Interval.mk (0:ℚ) 2) (Interval.mk (0:ℚ) 2) 0 0 = (1, 0) ∧
    ((1, 0) : Nat × Nat) ≠ (1, 1) := by
  refine ⟨rfl, ?_, by simp⟩
  simp [intersect_advance]

/-- C3 (amended): on simultaneous ends only the first list's index advances
in that step; provided the second head is a valid interval and the remaining
first-list intervals are nondegenerate and start at or after the shared end
(as sorted non-overlapping input guarantees), the stale second-list head is
skipped on the next step without emitting anything, so no overlap is lost:
the merge equals the emitted overlap followed by the merge of both tails. -/
theorem intersect_periods_tie_step {α : Type} [LinearOrder α]
    (x y : Interval α) (xs ys : List (Interval α))
    (htie : x.stop = y.stop) (hy : y.start ≤ y.stop)
    (hxs : ∀ z ∈ xs, y.stop ≤ z.start ∧ z.start < z.stop) :
    (∀ i j : Nat, intersect_advance x y i j = (i + 1, j)) ∧
    intersect_periods (x :: xs) (y :: ys)
      = (if (if x.start ≥ y.start then x.start else y.start) < x.stop
          then [Interval.mk (if x.start ≥ y.start then x.start else y.start) x.stop]
          else [])
        ++ intersect_periods xs ys := by
  have hle : x.stop ≤ y.stop := le_of_eq htie
  constructor
  · intro i j
    simp [intersect_advance, hle]
  · have hrest : intersect_list xs (y :: ys) = intersect_list xs ys := by
      cases xs with
      | nil => rw [intersect_list_nil_left, intersect_list_nil_left]
      | cons z zs =>
          obtain ⟨hstart, hnondeg⟩ := hxs z (List.mem_cons_self z zs)
          have hzy : ¬(z.stop ≤ y.stop) := not_le.mpr (lt_of_le_of_lt hstart hnondeg)
          rw [intersect_list.eq_def]
          dsimp only
          simp only [if_neg hzy]
          rw [if_pos (show z.start ≥ y.start from le_trans hy hstart)]
          rw [if_neg (not_lt.mpr hstart)]
    rw [intersect_periods_eq_list, intersect_periods_eq_list]
    rw [intersect_list.eq_def]
    dsimp only
    simp only [if_pos hle]
    rw [hrest]
    by_cases hemit : (if x.start ≥ y.start then x.start else y.start) < x.stop
    · rw [if_pos hemit, if_pos hemit]
      rfl
    · rw [if_neg hemit, if_neg hemit]
      rfl

/-- Witness for the amended C3 on a tie with a subsequent overlap. -/
theorem intersect_periods_tie_step_witness :
    ((Interval.mk (0:ℚ) 2).stop = (Interval.mk (0:ℚ) 2).stop) ∧
    ((Interval.mk (0:ℚ) 2).start ≤ (Interval.mk (0:ℚ) 2).stop) ∧
    (∀ z ∈ [Interval.mk (2:ℚ) 3], (Interval.mk (0:ℚ) 2).stop ≤ z.start ∧ z.start < z.stop) ∧
    ((∀ i j : Nat,
        intersect_advance (Interval.mk (0:ℚ) 2) (Interval.mk (0:ℚ) 2) i j = (i + 1, j)) ∧
      intersect_periods [Interval.mk (0:ℚ) 2, Interval.mk (2:ℚ) 3]
          [Interval.mk (0:ℚ) 2, Interval.mk (2:ℚ) 3]
        = (if (if (Interval.mk (0:ℚ) 2).start ≥ (Interval.mk (0:ℚ) 2).start
                then (Interval.mk (0:ℚ) 2).start else (Interval.mk (0:ℚ) 2).start)
              < (Interval.mk (0:ℚ) 2).stop
            then [Interval.mk (if (Interval.mk (0:ℚ) 2).start ≥ (Interval.mk (0:ℚ) 2).start
                then (Interval.mk (0:ℚ) 2).start else (Interval.mk (0:ℚ) 2).start)
                (Interval.mk (0:ℚ) 2).stop]
            else [])
          ++ intersect_periods [Interval.mk (2:ℚ) 3] [Interval.mk (2:ℚ) 3]) := by
  have hxs : ∀ z ∈ [Interval.mk (2:ℚ) 3],
      (Interval.mk (0:ℚ) 2).stop ≤ z.start ∧ z.start < z.stop := by
    intro z hz
    simp only [List.mem_singleton] at hz
    subst hz
    norm_num
  exact ⟨rfl, by norm_num, hxs,
    intersect_periods_tie_step (Interval.mk (0:ℚ) 2) (Interval.mk (0:ℚ) 2)
      [Interval.mk (2:ℚ) 3] [Interval.mk (2:ℚ) 3] rfl (by norm_num) hxs⟩

/-! ## Claim C8 -/

/-- Counterexample to C8 as stated: on the degenerate outer interval with
start equal to stop, complement_within of the empty list returns the empty
list, not the one-element list holding the outer interval. -/
theorem complement_within_counterexample :
    complement_within (Interval.mk (0:ℚ) 0) ([] : List (Interval ℚ)) = [] ∧
    ([] : List (Interval ℚ)) ≠ [Interval.mk (0:ℚ) 0] := by
  constructor
  · simp [complement_within, complement_go]
  · simp

/-- C8 (amended): for every outer interval with start strictly before stop,
complement_within of the empty list is the one-element list of the outer
interval; and for every outer interval, complement_within of the outer
interval itself is empty. -/
theorem complement_within_empty_and_full {α : Type} [LinearOrder α]
    (outer : Interval α) (hlt : outer.start < outer.stop) :
    complement_within outer [] = [outer] ∧
    complement_within outer [outer] = [] := by
  constructor
  · rw [complement_within, complement_go, if_pos hlt]
  · rw [complement_within, complement_go]
    rw [if_neg (lt_irrefl outer.start), if_pos hlt]
    rw [complement_go, if_neg (lt_irrefl outer.stop)]
    simp

/-- Witness for the amended C8 on the outer interval from 0 to 1. -/
theorem complement_within_empty_and_full_witness :
    (Interval.mk (0:ℚ) 1).start < (Interval.mk (0:ℚ) 1).stop ∧
    complement_within (Interval.mk (0:ℚ) 1) [] = [Interval.mk (0:ℚ) 1] ∧
    complement_within (Interval.mk (0:ℚ) 1) [Interval.mk (0:ℚ) 1] = [] :=
  ⟨by norm_num,
   (complement_within_empty_and_full (Interval.mk (0:ℚ) 1) (by norm_num)).1,
   (complement_within_empty_and_full (Interval.mk (0:ℚ) 1) (by norm_num)).2⟩

/-! ## Claim C9: totality -/

lemma DELTA_T_length : DELTA_T.length = 187 := by rfl

lemma OBSERVED_DT_length : OBSERVED_DT.length = 34 := by rfl

lemma delta_t_table_isSome (jd : ℚ) : (delta_t_table jd).isSome = true := by
  simp only [delta_t_table]
  by_cases hc : rust_as_usize ((jd - 2312752.5) / 730.5) > TERMS - 3
  · rw [if_pos hc]
    rw [List.getElem?_eq_getElem (by rw [DELTA_T_length]; norm_num [TERMS]),
      List.getElem?_eq_getElem (by rw [DELTA_T_length]; norm_num [TERMS]),
      List.getElem?_eq_getElem (by rw [DELTA_T_length]; norm_num [TERMS])]
    rfl
  · rw [if_neg hc]
    have hb : rust_as_usize ((jd - 2312752.5) / 730.5) ≤ 184 := by
      simp only [TERMS] at hc
      omega
    rw [List.getElem?_eq_getElem (by rw [DELTA_T_length]; omega),
      List.getElem?_eq_getElem (by rw [DELTA_T_length]; omega),
      List.getElem?_eq_getElem (by rw [DELTA_T_length]; omega)]
    rfl

lemma delta_t_observed_isSome (jd : ℚ) : (delta_t_observed jd).isSome = true := by
  simp only [delta_t_observed]
  split
  · rw [List.getElem?_eq_getElem (by rw [OBSERVED_DT_length]; norm_num [OBSERVED_TERMS])]
    rfl
  · rename_i hguard
    simp only [OBSERVED_TERMS, not_le] at hguard
    rw [List.getElem?_eq_getElem (by rw [OBSERVED_DT_length]; omega),
      List.getElem?_eq_getElem (by rw [OBSERVED_DT_length]; omega)]
    rfl

lemma delta_t_extrapolated_isSome (jd : ℚ) : (delta_t_extrapolated jd).isSome = true := by
  simp only [delta_t_extrapolated]
  rw [List.getElem?_eq_getElem (by rw [OBSERVED_DT_length]; norm_num [OBSERVED_TERMS])]
  rfl

/-- C9: the ΔT model and the leap-second lookup are total — they return a
value on every rational input, never hitting an out-of-bounds access — and
the clamped base index of the biennial table always leaves room for the
three-point stencil. -/
theorem delta_t_and_leap_lookup_total :
    (∀ jd : ℚ, (delta_t_seconds_from_ut jd).isSome = true) ∧
    (∀ jd : ℚ, (tai_minus_utc jd).isSome = true) ∧
    (∀ jd : ℚ,
      (if rust_as_usize ((jd - 2312752.5) / 730.5) > TERMS - 3 then TERMS - 3
        else rust_as_usize ((jd - 2312752.5) / 730.5)) + 2 < TERMS) := by
  refine ⟨?_, ?_, ?_⟩
  · intro jd
    unfold delta_t_seconds_from_ut
    by_cases h1 : jd < 2067314.5
    · rw [if_pos h1]
      rfl
    · rw [if_neg h1]
      by_cases h2 : jd < 2305447.5
      · rw [if_pos h2]
        rfl
      · rw [if_neg h2]
        by_cases h3 : jd < JD_1992
        · rw [if_pos h3]
          exact delta_t_table_isSome jd
        · rw [if_neg h3]
          by_cases h4 : jd < JD_2026
          · rw [if_pos h4]
            exact delta_t_observed_isSome jd
          · rw [if_neg h4]
            exact delta_t_extrapolated_isSome jd
  · intro jd
    obtain ⟨r, _, hval, _, _⟩ := tai_minus_utc_spec jd
    rw [hval]
    rfl
  · intro jd
    by_cases hc : rust_as_usize ((jd - 2312752.5) / 730.5) > TERMS - 3
    · rw [if_pos hc]
      norm_num [TERMS]
    · rw [if_neg hc]
      simp only [TERMS] at hc ⊢
      omega

end Tempoch
